import Mathlib

/-!
Shallow embedding of the Joulecoin proof-of-work module (`src/pow.cpp`) and
verification of its specification claims.

Machine integers are modelled as `Nat` (unsigned 256-bit values carry an
explicit `% 2^256` wherever the C++ `arith_uint256` arithmetic can wrap) and
`Int` (the C++ `int64_t` values: heights, timestamps, timespans).  The
`arith_uint256` compact codec (`SetCompact` / `GetCompact`) and the consensus
parameter record live outside this repository's sources, so they are modelled
from the specification's description of the compact wire format.
-/

set_option maxRecDepth 100000

namespace Joulecoin

/-! ## Consensus parameters and chain view (modelled from the spec) -/

/-- Modelled from the spec: `ConsensusParams` (the `Consensus::Params` record,
not part of this repository's sources) — absolute difficulty floor `powLimit`
(a 256-bit unsigned integer), nominal spacing and timespan, the test-network
minimum-difficulty flag and the retargeting-disable flag. -/
structure ConsensusParams where
  powLimit : Nat
  nPowTargetSpacing : Int
  nPowTargetTimespan : Int
  fPowAllowMinDifficultyBlocks : Bool
  fPowNoRetargeting : Bool

/-- Modelled from the spec: the adjustment-interval length of the parameter
set, the nominal timespan divided by the nominal spacing (C++ `int64_t`
division truncates toward zero). -/
def ConsensusParams.DifficultyAdjustmentInterval (params : ConsensusParams) : Int :=
  Int.tdiv params.nPowTargetTimespan params.nPowTargetSpacing

/-- Modelled from the spec: a candidate block header; only its timestamp is
consumed by this module. -/
structure CBlockHeader where
  nTime : Int

def CBlockHeader.GetBlockTime (b : CBlockHeader) : Int := b.nTime

/-- Modelled from the spec: an entry of the externally-owned ancestor chain
view — height, timestamp, compact target used, cumulative chain work, and a
back-link to the immediate predecessor (none for the genesis entry). -/
inductive CBlockIndex where
  | mk (nHeight : Int) (nTime : Int) (nBits : Nat) (nChainWork : Nat)
       (pprev : Option CBlockIndex)

def CBlockIndex.nHeight : CBlockIndex → Int
  | .mk h _ _ _ _ => h

def CBlockIndex.nTime : CBlockIndex → Int
  | .mk _ t _ _ _ => t

def CBlockIndex.nBits : CBlockIndex → Nat
  | .mk _ _ b _ _ => b

def CBlockIndex.nChainWork : CBlockIndex → Nat
  | .mk _ _ _ w _ => w

def CBlockIndex.pprev : CBlockIndex → Option CBlockIndex
  | .mk _ _ _ _ p => p

def CBlockIndex.GetBlockTime (b : CBlockIndex) : Int := b.nTime

/-! ## Compact target codec (modelled from the spec) -/

/-- Exponent byte of a 32-bit compact value: its top byte. -/
def compactSize (c : Nat) : Nat := c / 2^24

/-- Mantissa of a compact value: the low 23 bits (bit 23 is the sign bit and
is excluded, per the wire format). -/
def compactWord (c : Nat) : Nat := c % 2^23

/-- Bit 23 of a compact value: the sign bit of the legacy floating
convention. -/
def compactSign (c : Nat) : Bool := c / 2^23 % 2 = 1

/-- Modelled from the spec: the 256-bit magnitude decoded from a compact
value (`arith_uint256::SetCompact`, not part of this repository's sources) —
the mantissa scaled by 256 to the exponent minus three, kept inside 256 bits
per the fixed-width arithmetic. -/
def setCompactValue (c : Nat) : Nat :=
  if compactSize c ≤ 3 then compactWord c / 2^(8 * (3 - compactSize c))
  else compactWord c * 2^(8 * (compactSize c - 3)) % 2^256

/-- Modelled from the spec: the decode's negative flag — a nonzero mantissa
whose sign bit is set. -/
def setCompactNegative (c : Nat) : Bool :=
  compactWord c != 0 && compactSign c

/-- Modelled from the spec: the decode's overflow flag — a nonzero mantissa
whose exponent implies a magnitude exceeding 256 bits. -/
def setCompactOverflow (c : Nat) : Bool :=
  compactWord c != 0 &&
    (compactSize c > 34 ||
     (compactWord c > 0xff && compactSize c > 33) ||
     (compactWord c > 0xffff && compactSize c > 32))

/-- Number of significant binary digits of `x`, computed with structural fuel
(sufficient for every 256-bit value); models `base_uint::bits()`. -/
def bitsFuel : Nat → Nat → Nat
  | _, 0 => 0
  | 0, _ + 1 => 0
  | f + 1, x + 1 => bitsFuel f ((x + 1) / 2) + 1

def bits (x : Nat) : Nat := bitsFuel 256 x

/-- Modelled from the spec: the compact encoding of a 256-bit magnitude
(`arith_uint256::GetCompact`) — minimal exponent = significant byte count,
mantissa the top three bytes, bumping the exponent when the mantissa would
collide with the sign bit. -/
def getCompact (x : Nat) : Nat :=
  let nSize0 := (bits x + 7) / 8
  let nCompact0 :=
    if nSize0 ≤ 3 then x % 2^64 * 2^(8 * (3 - nSize0)) % 2^32
    else x / 2^(8 * (nSize0 - 3)) % 2^64 % 2^32
  let nCompact := if nCompact0 / 2^23 % 2 = 1 then nCompact0 / 2^8 else nCompact0
  let nSize := if nCompact0 / 2^23 % 2 = 1 then nSize0 + 1 else nSize0
  nCompact + nSize * 2^24

/-! ## Constants of `pow.cpp` (translated from the source) -/

def nTargetTimespan : Int := 45
def nTargetSpacing : Int := 45
def nInterval : Int := Int.tdiv nTargetTimespan nTargetSpacing

def nHeightVer2 : Int := 32000
def nHeightVer3 : Int := 90000

def nAveragingInterval1 : Int := nInterval * 160
def nAveragingTargetTimespan1 : Int := nAveragingInterval1 * nTargetSpacing

def nAveragingInterval2 : Int := nInterval * 8
def nAveragingTargetTimespan2 : Int := nAveragingInterval2 * nTargetSpacing

def nAveragingInterval3 : Int := nAveragingInterval2
def nAveragingTargetTimespan3 : Int := nAveragingTargetTimespan2

def nMaxAdjustDown1 : Int := 10
def nMaxAdjustUp1 : Int := 1

def nMaxAdjustDown2 : Int := 1
def nMaxAdjustUp2 : Int := 1

def nMaxAdjustDown3 : Int := 3
def nMaxAdjustUp3 : Int := 1

def nMinActualTimespan1 : Int := Int.tdiv (nAveragingTargetTimespan1 * (100 - nMaxAdjustUp1)) 100
def nMaxActualTimespan1 : Int := Int.tdiv (nAveragingTargetTimespan1 * (100 + nMaxAdjustDown1)) 100

def nMinActualTimespan2 : Int := Int.tdiv (nAveragingTargetTimespan2 * (100 - nMaxAdjustUp2)) 100
def nMaxActualTimespan2 : Int := Int.tdiv (nAveragingTargetTimespan2 * (100 + nMaxAdjustDown2)) 100

def nMinActualTimespan3 : Int := Int.tdiv (nAveragingTargetTimespan3 * (100 - nMaxAdjustUp3)) 100
def nMaxActualTimespan3 : Int := Int.tdiv (nAveragingTargetTimespan3 * (100 + nMaxAdjustDown3)) 100

/-! ## Difficulty retarget engine (`GetNextWorkRequired`,
`CalculateNextWorkRequired`) -/

/-- The era-selected lower clamp bound, chosen by candidate height (tip
height + 1), mirroring the nested conditionals of
`CalculateNextWorkRequired`. -/
def eraMinActualTimespan (h1 : Int) : Int :=
  if h1 ≥ nHeightVer3 then nMinActualTimespan3
  else if h1 ≥ nHeightVer2 then nMinActualTimespan2
  else nMinActualTimespan1

/-- The era-selected upper clamp bound. -/
def eraMaxActualTimespan (h1 : Int) : Int :=
  if h1 ≥ nHeightVer3 then nMaxActualTimespan3
  else if h1 ≥ nHeightVer2 then nMaxActualTimespan2
  else nMaxActualTimespan1

/-- The era-selected averaging timespan. -/
def eraAveragingTargetTimespan (h1 : Int) : Int :=
  if h1 ≥ nHeightVer3 then nAveragingTargetTimespan3
  else if h1 ≥ nHeightVer2 then nAveragingTargetTimespan2
  else nAveragingTargetTimespan1

/-- The era-selected averaging window length used by the walk-back in
`GetNextWorkRequired`. -/
def eraAveragingInterval (h1 : Int) : Int :=
  if h1 ≥ nHeightVer3 then nAveragingInterval3
  else if h1 ≥ nHeightVer2 then nAveragingInterval2
  else nAveragingInterval1

/-- The actual timespan (tip timestamp minus first-block timestamp) after the
two clamping steps of `CalculateNextWorkRequired`. -/
def clampedTimespan (pindexLast : CBlockIndex) (nFirstBlockTime : Int) : Int :=
  let nMin := eraMinActualTimespan (pindexLast.nHeight + 1)
  let nMax := eraMaxActualTimespan (pindexLast.nHeight + 1)
  let nActual := pindexLast.GetBlockTime - nFirstBlockTime
  let nActual1 := if nActual < nMin then nMin else nActual
  if nActual1 > nMax then nMax else nActual1

/-- `CalculateNextWorkRequired` from `pow.cpp`: era-selected clamp and
averaging timespan, then 256-bit multiply (wrapping modulo `2^256`, as
`arith_uint256` does), divide, floor at `powLimit`, re-encode. -/
def CalculateNextWorkRequired (pindexLast : CBlockIndex) (nFirstBlockTime : Int)
    (params : ConsensusParams) : Nat :=
  if params.fPowNoRetargeting then pindexLast.nBits
  else
    let nActualTimespan := clampedTimespan pindexLast nFirstBlockTime
    let nAveragingTargetTimespan := eraAveragingTargetTimespan (pindexLast.nHeight + 1)
    let bnNew := setCompactValue pindexLast.nBits
    let bnNew := bnNew * nActualTimespan.toNat % 2^256
    let bnNew := bnNew / nAveragingTargetTimespan.toNat
    let bnNew := if bnNew > params.powLimit then params.powLimit else bnNew
    getCompact bnNew

/-- The testnet walk of `GetNextWorkRequired`: step to the predecessor while
the entry has one, is not at an adjustment-interval boundary, and used the
minimum-difficulty compact target; return the stopping entry's `nBits`. -/
def lastNonMinDiff (nLimit : Nat) (ival : Int) : CBlockIndex → Nat
  | .mk h _ b _ (some prev) =>
      if Int.tmod h ival ≠ 0 ∧ b = nLimit then lastNonMinDiff nLimit ival prev else b
  | .mk _ _ b _ none => b

/-- The walk-back loop of `GetNextWorkRequired`: follow `pprev` for the given
number of steps, stopping early (at `none`) if the chain runs out. -/
def walkBack : Option CBlockIndex → Nat → Option CBlockIndex
  | p, 0 => p
  | none, _ + 1 => none
  | some p, n + 1 => walkBack p.pprev n

/-- `GetNextWorkRequired` from `pow.cpp`.  `none` models the failure of the
`assert(pindexFirst)` invariant (chain shorter than the averaging window). -/
def GetNextWorkRequired (pindexLast : Option CBlockIndex) (pblock : CBlockHeader)
    (params : ConsensusParams) : Option Nat :=
  let nProofOfWorkLimit := getCompact params.powLimit
  match pindexLast with
  | none => some nProofOfWorkLimit
  | some last =>
    if last.nHeight + 1 < nAveragingInterval1 then some nProofOfWorkLimit
    else if params.fPowAllowMinDifficultyBlocks then
      if pblock.GetBlockTime > last.GetBlockTime + params.nPowTargetSpacing * 2 then
        some nProofOfWorkLimit
      else
        some (lastNonMinDiff nProofOfWorkLimit params.DifficultyAdjustmentInterval last)
    else
      match walkBack (some last) (eraAveragingInterval (last.nHeight + 1) - 1).toNat with
      | none => none
      | some first => some (CalculateNextWorkRequired last first.GetBlockTime params)

/-! ## Proof-of-work verifier and work accumulator -/

/-- `CheckProofOfWork` from `pow.cpp`: decode the compact target, reject on
negative, zero, overflow or above the network floor, then compare the hash
against the target. -/
def CheckProofOfWork (hash : Nat) (nBits : Nat) (params : ConsensusParams) : Bool :=
  let bnTarget := setCompactValue nBits
  if setCompactNegative nBits || bnTarget == 0 || setCompactOverflow nBits ||
      decide (bnTarget > params.powLimit) then false
  else if decide (hash > bnTarget) then false
  else true

/-- `GetBlockProof` from `pow.cpp`: zero on an invalid decode, otherwise
`~target / (target + 1) + 1` in 256-bit arithmetic (`~target` is the 256-bit
complement `2^256 - 1 - target`). -/
def GetBlockProof (block : CBlockIndex) : Nat :=
  let bnTarget := setCompactValue block.nBits
  if setCompactNegative block.nBits || setCompactOverflow block.nBits ||
      bnTarget == 0 then 0
  else (2^256 - 1 - bnTarget) / (bnTarget + 1) + 1

/-! ## Equivalent-time estimator -/

/-- The reference spacing as converted into `arith_uint256` (the C++
`int64_t` to `uint64_t` conversion reduces modulo `2^64`). -/
def spacingAsArith (params : ConsensusParams) : Nat :=
  (Int.emod params.nPowTargetSpacing (2^64)).toNat

/-- The backward chain of entries reachable from an entry through `pprev`,
starting with the entry itself. -/
def backChain : CBlockIndex → List CBlockIndex
  | .mk h t b w none => [.mk h t b w none]
  | .mk h t b w (some prev) => .mk h t b w (some prev) :: backChain prev

/-- The stopping condition of the testnet walk: the entry has no
predecessor, or sits on an adjustment-interval boundary, or did not use the
minimum-difficulty compact target. -/
def breaksWalk (nLimit : Nat) (ival : Int) (p : CBlockIndex) : Bool :=
  p.pprev.isNone || decide (Int.tmod p.nHeight ival = 0) || decide (p.nBits ≠ nLimit)

/-- `GetBlockProofEquivalentTime` from `pow.cpp`: signed work difference
times spacing (256-bit wrap) over the tip's block proof, saturated to the
`int64_t` maximum when the quotient needs more than 63 bits. -/
def GetBlockProofEquivalentTime (toIdx fromIdx tip : CBlockIndex)
    (params : ConsensusParams) : Int :=
  let rsign : Nat × Int :=
    if fromIdx.nChainWork < toIdx.nChainWork then
      (toIdx.nChainWork - fromIdx.nChainWork, 1)
    else
      (fromIdx.nChainWork - toIdx.nChainWork, -1)
  let r := rsign.1 * spacingAsArith params % 2^256 / GetBlockProof tip
  if 63 < bits r then rsign.2 * (2^63 - 1)
  else rsign.2 * (r % 2^64 : Nat)

/-! ## General lemmas about the embedding -/

theorem setCompactValue_lt (c : Nat) : setCompactValue c < 2^256 := by
  unfold setCompactValue
  split
  · calc compactWord c / 2^(8 * (3 - compactSize c)) ≤ compactWord c := Nat.div_le_self _ _
      _ < 2^23 := Nat.mod_lt _ (by norm_num)
      _ < 2^256 := by norm_num
  · exact Nat.mod_lt _ (by norm_num)

theorem bits_zero : bits 0 = 0 := rfl

theorem bitsFuel_gt_iff : ∀ (f k x : Nat), x < 2^f → (k < bitsFuel f x ↔ 2^k ≤ x) := by
  intro f
  induction f with
  | zero =>
    intro k x hx
    have hx0 : x = 0 := by omega
    subst hx0
    simp [bitsFuel]
  | succ f ih =>
    intro k x hx
    cases x with
    | zero => simp [bitsFuel]
    | succ x =>
      cases k with
      | zero =>
        simp [bitsFuel]
      | succ k =>
        have hdiv : (x + 1) / 2 < 2^f := by
          have : 2 ^ (f + 1) = 2 * 2 ^ f := by rw [pow_succ]; ring
          omega
        have hiff := ih k ((x + 1) / 2) hdiv
        have hpow : 2 ^ (k + 1) = 2 ^ k * 2 := by rw [pow_succ]
        simp only [bitsFuel]
        constructor
        · intro h
          have hk : k < bitsFuel f ((x + 1) / 2) := by omega
          have h2 : 2 ^ k ≤ (x + 1) / 2 := hiff.mp hk
          omega
        · intro h
          have h2 : 2 ^ k ≤ (x + 1) / 2 := by omega
          have := hiff.mpr h2
          omega

theorem bits_gt_iff (x : Nat) (hx : x < 2^256) : 63 < bits x ↔ 2^63 ≤ x :=
  bitsFuel_gt_iff 256 63 x hx

/-- `GetBlockProof` written with an explicit floor division of `2^256`: the
two forms agree because `2^256 = (2^256 - 1 - t) + (t + 1)` for every
256-bit target `t`. -/
theorem getBlockProof_eq_div (block : CBlockIndex) :
    GetBlockProof block =
      if setCompactNegative block.nBits = true ∨ setCompactOverflow block.nBits = true ∨
          setCompactValue block.nBits = 0 then 0
      else 2^256 / (setCompactValue block.nBits + 1) := by
  by_cases hc : setCompactNegative block.nBits = true ∨ setCompactOverflow block.nBits = true ∨
      setCompactValue block.nBits = 0
  · rw [if_pos hc]
    unfold GetBlockProof
    simp only [Bool.or_eq_true, beq_iff_eq]
    rw [if_pos (by tauto)]
  · rw [if_neg hc]
    unfold GetBlockProof
    simp only [Bool.or_eq_true, beq_iff_eq]
    rw [if_neg (by tauto)]
    have ht := setCompactValue_lt block.nBits
    have key : (2:Nat)^256 = 2^256 - 1 - setCompactValue block.nBits +
        (setCompactValue block.nBits + 1) := by omega
    conv_rhs => rw [key]
    rw [Nat.add_div_right _ (Nat.succ_pos _)]

/-! ## Claim theorems -/

/-- C3: `CheckProofOfWork hash nBits params` returns `false` exactly when the
decode of `nBits` yields the negative flag, or the overflow flag, or a zero
magnitude, or a magnitude above `params.powLimit`, or the hash (as a 256-bit
unsigned integer) exceeds the decoded magnitude; in every other case — in
particular when the hash equals the decoded target — it returns `true` (the
model is pure; the only C++ side effect is the diagnostic log line). -/
theorem checkProofOfWork_false_iff (hash nBits : Nat) (params : ConsensusParams) :
    CheckProofOfWork hash nBits params = false ↔
      (setCompactNegative nBits = true ∨ setCompactOverflow nBits = true ∨
       setCompactValue nBits = 0 ∨ params.powLimit < setCompactValue nBits ∨
       setCompactValue nBits < hash) := by
  unfold CheckProofOfWork
  simp only [Bool.or_eq_true, beq_iff_eq, decide_eq_true_eq, gt_iff_lt]
  split_ifs with h1 h2 <;> simp_all
  tauto

/-- C5: `GetBlockProof` returns `0` when the entry's compact target decodes
with the negative flag, the overflow flag, or to a zero magnitude (and never
raises — the model is total); otherwise its `~target / (target + 1) + 1`
computation in 256-bit arithmetic equals `⌊2^256 / (target + 1)⌋`. -/
theorem getBlockProof_spec (block : CBlockIndex) :
    GetBlockProof block =
      if setCompactNegative block.nBits = true ∨ setCompactOverflow block.nBits = true ∨
          setCompactValue block.nBits = 0 then 0
      else 2^256 / (setCompactValue block.nBits + 1) :=
  getBlockProof_eq_div block

/-- C9: work is anti-monotone in the target — for two entries whose compact
targets decode without negative or overflow flags to nonzero magnitudes
`a ≤ b`, the entry with magnitude `a` has at least as much `GetBlockProof`
work as the entry with magnitude `b`. -/
theorem getBlockProof_antitone (b1 b2 : CBlockIndex)
    (h1n : setCompactNegative b1.nBits = false) (h1o : setCompactOverflow b1.nBits = false)
    (h1z : setCompactValue b1.nBits ≠ 0)
    (h2n : setCompactNegative b2.nBits = false) (h2o : setCompactOverflow b2.nBits = false)
    (h2z : setCompactValue b2.nBits ≠ 0)
    (hle : setCompactValue b1.nBits ≤ setCompactValue b2.nBits) :
    GetBlockProof b2 ≤ GetBlockProof b1 := by
  rw [getBlockProof_eq_div, getBlockProof_eq_div]
  rw [if_neg (by simp [h2n, h2o, h2z]), if_neg (by simp [h1n, h1o, h1z])]
  exact Nat.div_le_div_left (by omega) (by omega)

/-- C9 witness: a target of `256` yields no more work than a target of `1`. -/
theorem getBlockProof_antitone_witness :
    GetBlockProof (CBlockIndex.mk 0 0 0x04000001 0 none) ≤
      GetBlockProof (CBlockIndex.mk 0 0 0x03000001 0 none) :=
  getBlockProof_antitone (CBlockIndex.mk 0 0 0x03000001 0 none)
    (CBlockIndex.mk 0 0 0x04000001 0 none)
    (by decide) (by decide) (by decide) (by decide) (by decide) (by decide) (by decide)

/-- C10: the divisor `GetBlockProof tip` used (with no zero guard) by
`GetBlockProofEquivalentTime` is nonzero exactly when the tip's compact
target decodes without the negative and overflow flags to a nonzero
magnitude; for a tip whose `nBits` decodes negative, overflow, or zero, the
divisor is zero. -/
theorem getBlockProof_nonzero_iff (tip : CBlockIndex) :
    GetBlockProof tip ≠ 0 ↔
      (setCompactNegative tip.nBits = false ∧ setCompactOverflow tip.nBits = false ∧
       setCompactValue tip.nBits ≠ 0) := by
  rw [getBlockProof_eq_div]
  by_cases hc : setCompactNegative tip.nBits = true ∨ setCompactOverflow tip.nBits = true ∨
      setCompactValue tip.nBits = 0
  · rw [if_pos hc]
    simp only [ne_eq, not_true_eq_false, false_iff, not_and]
    intro hn ho
    rcases hc with h | h | h
    · rw [hn] at h; exact absurd h (by simp)
    · rw [ho] at h; exact absurd h (by simp)
    · exact fun hz => hz h
  · rw [if_neg hc]
    push_neg at hc
    have ht := setCompactValue_lt tip.nBits
    have hpos : 0 < 2^256 / (setCompactValue tip.nBits + 1) :=
      Nat.div_pos (by omega) (by omega)
    simp only [ne_eq]
    constructor
    · intro _
      exact ⟨Bool.not_eq_true _ ▸ hc.1, Bool.not_eq_true _ ▸ hc.2.1, hc.2.2⟩
    · intro _
      omega

/-- C1 counterexample: the claim's era-1 clamp interval `[6480, 7272]` and
era-3 interval `[349, 363]` are wrong.  An era-1 tip (candidate height 1)
whose actual timespan is 7920 is left at 7920 by the code's clamp,
exceeding the claimed bound 7272; an era-3 tip (candidate height 90000)
whose actual timespan is 370 is left at 370, exceeding the claimed bound
363. -/
theorem clampedTimespan_counterexample :
    7272 < clampedTimespan (CBlockIndex.mk 0 7920 0 0 none) 0 ∧
    363 < clampedTimespan (CBlockIndex.mk 89999 370 0 0 none) 0 := by
  decide

/-- C1 (amended): the actual timespan is clamped into the era's bounds
before retargeting — era 1 (candidate height below 32000) may shrink below
the averaging timespan of 7200 by at most 1% and grow above it by at most
10%, giving the clamp interval `[7200*99/100, 7200*110/100] = [7128, 7920]`;
era 2 (candidate height in `[32000, 90000)`) at most 1% shrink / 1% grow of
360, giving `[356, 363]`; era 3 (candidate height at or above 90000) at most
1% shrink / 3% grow of 360, giving `[356, 370]`. -/
theorem clampedTimespan_era_bounds (tip : CBlockIndex) (t : Int) :
    (tip.nHeight + 1 < 32000 →
      7128 ≤ clampedTimespan tip t ∧ clampedTimespan tip t ≤ 7920) ∧
    (32000 ≤ tip.nHeight + 1 → tip.nHeight + 1 < 90000 →
      356 ≤ clampedTimespan tip t ∧ clampedTimespan tip t ≤ 363) ∧
    (90000 ≤ tip.nHeight + 1 →
      356 ≤ clampedTimespan tip t ∧ clampedTimespan tip t ≤ 370) := by
  have e1 : nMinActualTimespan1 = 7128 := by decide
  have e2 : nMaxActualTimespan1 = 7920 := by decide
  have e3 : nMinActualTimespan2 = 356 := by decide
  have e4 : nMaxActualTimespan2 = 363 := by decide
  have e5 : nMinActualTimespan3 = 356 := by decide
  have e6 : nMaxActualTimespan3 = 370 := by decide
  have h2 : nHeightVer2 = 32000 := rfl
  have h3 : nHeightVer3 = 90000 := rfl
  simp only [clampedTimespan, eraMinActualTimespan, eraMaxActualTimespan,
    e1, e2, e3, e4, e5, e6, h2, h3]
  refine ⟨fun ha => ?_, fun ha hb => ?_, fun ha => ?_⟩ <;> split_ifs <;> omega

/-- C1 witness: an era-2 tip whose actual timespan is 100 is clamped into
`[356, 363]`. -/
theorem clampedTimespan_era_bounds_witness :
    356 ≤ clampedTimespan (CBlockIndex.mk 39999 100 0 0 none) 0 ∧
    clampedTimespan (CBlockIndex.mk 39999 100 0 0 none) 0 ≤ 363 :=
  (clampedTimespan_era_bounds (CBlockIndex.mk 39999 100 0 0 none) 0).2.1
    (by decide) (by decide)

/-- C2 counterexample: the claimed no-overflow property fails.  For a tip
whose compact target `0x2100ffff` decodes to `(2^16 - 1) * 2^240`, the
256-bit multiplication by the clamped timespan wraps modulo `2^256`, so
`CalculateNextWorkRequired` does not return the compact encoding of
`min(powLimit, target * clampedTimespan / averagingTimespan)` computed
exactly. -/
theorem calculateNextWork_overflow_counterexample :
    CalculateNextWorkRequired (CBlockIndex.mk 100000 360 0x2100ffff 0 none) 0
        (ConsensusParams.mk (2^256 - 1) 45 45 false false) ≠
      getCompact (min (2^256 - 1)
        (setCompactValue 0x2100ffff *
            (clampedTimespan (CBlockIndex.mk 100000 360 0x2100ffff 0 none) 0).toNat /
          (eraAveragingTargetTimespan
              ((CBlockIndex.mk 100000 360 0x2100ffff 0 none).nHeight + 1)).toNat)) := by
  decide

/-- C2 (amended): with retargeting enabled, `CalculateNextWorkRequired`
returns the compact encoding of
`min(powLimit, target * clampedTimespan / averagingTimespan)` with the
multiplication preceding the division, both in 256-bit unsigned arithmetic,
whenever the product `target * clampedTimespan` stays below `2^256`; the
multiplication wraps modulo `2^256` for larger decoded targets. -/
theorem calculateNextWork_exact (tip : CBlockIndex) (t : Int) (params : ConsensusParams)
    (hnr : params.fPowNoRetargeting = false)
    (hov : setCompactValue tip.nBits * (clampedTimespan tip t).toNat < 2^256) :
    CalculateNextWorkRequired tip t params =
      getCompact (min params.powLimit
        (setCompactValue tip.nBits * (clampedTimespan tip t).toNat /
          (eraAveragingTargetTimespan (tip.nHeight + 1)).toNat)) := by
  unfold CalculateNextWorkRequired
  rw [hnr]
  simp only [Bool.false_eq_true, if_false]
  rw [Nat.mod_eq_of_lt hov]
  congr 1
  rw [Nat.min_def]
  split_ifs <;> omega

/-- C2 witness: a small era-3 tip target (`0x1d00ffff`) whose product with
the clamped timespan does not overflow, retargeted exactly. -/
theorem calculateNextWork_exact_witness :
    CalculateNextWorkRequired (CBlockIndex.mk 100000 360 0x1d00ffff 0 none) 0
        (ConsensusParams.mk (2^256 - 1) 45 45 false false) =
      getCompact (min (2^256 - 1)
        (setCompactValue 0x1d00ffff *
            (clampedTimespan (CBlockIndex.mk 100000 360 0x1d00ffff 0 none) 0).toNat /
          (eraAveragingTargetTimespan
              ((CBlockIndex.mk 100000 360 0x1d00ffff 0 none).nHeight + 1)).toNat)) :=
  calculateNextWork_exact (CBlockIndex.mk 100000 360 0x1d00ffff 0 none) 0
    (ConsensusParams.mk (2^256 - 1) 45 45 false false) rfl (by decide)

/-- C4: `GetNextWorkRequired` returns the compact encoding of
`params.powLimit` whenever the tip is absent (genesis case) or the candidate
height (tip height + 1) is below 160, the era-1 averaging window length. -/
theorem getNextWork_genesis (o : Option CBlockIndex) (pblock : CBlockHeader)
    (params : ConsensusParams)
    (h : ∀ p, o = some p → p.nHeight + 1 < 160) :
    GetNextWorkRequired o pblock params = some (getCompact params.powLimit) := by
  cases o with
  | none => rfl
  | some last =>
    have hl := h last rfl
    have h160 : nAveragingInterval1 = 160 := by decide
    simp only [GetNextWorkRequired, h160]
    rw [if_pos hl]

/-- C4 witness: a tip of height 0 yields the compact `powLimit`. -/
theorem getNextWork_genesis_witness :
    GetNextWorkRequired (some (CBlockIndex.mk 0 0 0 0 none)) (CBlockHeader.mk 0)
        (ConsensusParams.mk (2^224) 45 45 false false) =
      some (getCompact (2^224)) :=
  getNextWork_genesis (some (CBlockIndex.mk 0 0 0 0 none)) (CBlockHeader.mk 0)
    (ConsensusParams.mk (2^224) 45 45 false false)
    (by intro p hp; cases hp; decide)

/-- The testnet walk stops exactly at the first entry of the backward chain
that breaks the loop condition, and returns that entry's `nBits`. -/
theorem lastNonMinDiff_find (nLimit : Nat) (ival : Int) :
    ∀ p : CBlockIndex, ∃ q, (backChain p).find? (breaksWalk nLimit ival) = some q ∧
      lastNonMinDiff nLimit ival p = q.nBits
  | .mk h t b w none =>
    ⟨.mk h t b w none, by
      rw [backChain, List.find?_cons_of_pos _ (by simp [breaksWalk, CBlockIndex.pprev])], rfl⟩
  | .mk h t b w (some prev) => by
    by_cases hc : Int.tmod h ival ≠ 0 ∧ b = nLimit
    · obtain ⟨q, hq1, hq2⟩ := lastNonMinDiff_find nLimit ival prev
      refine ⟨q, ?_, ?_⟩
      · rw [backChain, List.find?_cons_of_neg _ ?_, hq1]
        simp [breaksWalk, CBlockIndex.pprev, CBlockIndex.nHeight, CBlockIndex.nBits,
          hc.1, hc.2]
      · rw [lastNonMinDiff, if_pos hc, hq2]
    · refine ⟨.mk h t b w (some prev), ?_, ?_⟩
      · rw [backChain, List.find?_cons_of_pos _ ?_]
        simp only [breaksWalk, CBlockIndex.pprev, CBlockIndex.nHeight, CBlockIndex.nBits,
          Option.isNone_some, Bool.false_or, Bool.or_eq_true, decide_eq_true_eq]
        tauto
      · rw [lastNonMinDiff, if_neg hc]
        rfl

/-- C6: with minimum-difficulty blocks permitted and the genesis guard
passed — if the candidate's timestamp exceeds the tip's by more than twice
`nPowTargetSpacing`, `GetNextWorkRequired` returns exactly the compact
`powLimit`; otherwise it returns the `nBits` of the first entry of the
backward chain from the tip that has no predecessor, or sits on an
adjustment-interval boundary, or did not use the compact `powLimit`
target. -/
theorem getNextWork_minDifficulty (tip : CBlockIndex) (pblock : CBlockHeader)
    (params : ConsensusParams)
    (hmd : params.fPowAllowMinDifficultyBlocks = true)
    (hg : 160 ≤ tip.nHeight + 1) :
    (pblock.GetBlockTime > tip.GetBlockTime + params.nPowTargetSpacing * 2 →
      GetNextWorkRequired (some tip) pblock params = some (getCompact params.powLimit)) ∧
    (¬(pblock.GetBlockTime > tip.GetBlockTime + params.nPowTargetSpacing * 2) →
      ∃ q, (backChain tip).find?
          (breaksWalk (getCompact params.powLimit) params.DifficultyAdjustmentInterval) =
            some q ∧
        GetNextWorkRequired (some tip) pblock params = some q.nBits) := by
  have hat : ¬(tip.nHeight + 1 < nAveragingInterval1) := by
    have h160 : nAveragingInterval1 = 160 := by decide
    omega
  constructor
  · intro ht
    simp only [GetNextWorkRequired]
    rw [if_neg hat, if_pos hmd, if_pos ht]
  · intro ht
    obtain ⟨q, hq1, hq2⟩ :=
      lastNonMinDiff_find (getCompact params.powLimit) params.DifficultyAdjustmentInterval tip
    refine ⟨q, hq1, ?_⟩
    simp only [GetNextWorkRequired]
    rw [if_neg hat, if_pos hmd, if_neg ht, hq2]

/-- C6 witness: a sparse testnet candidate (timestamp more than twice the
spacing past the tip) gets the compact `powLimit`. -/
theorem getNextWork_minDifficulty_witness :
    GetNextWorkRequired (some (CBlockIndex.mk 200 0 0 0 none)) (CBlockHeader.mk 1000)
        (ConsensusParams.mk (2^224) 45 45 true false) =
      some (getCompact (2^224)) :=
  (getNextWork_minDifficulty (CBlockIndex.mk 200 0 0 0 none) (CBlockHeader.mk 1000)
      (ConsensusParams.mk (2^224) 45 45 true false) rfl (by decide)).1 (by decide)

/-- C7 counterexample: the claimed saturation fails when the 256-bit product
of the work difference and the spacing wraps.  With a work difference of
`2^255`, spacing 2, and a tip of block proof 2, the exact magnitude
`2^255 * 2 / 2 = 2^255` needs far more than 63 bits, yet
`GetBlockProofEquivalentTime` returns a wrapped value (`0`), not the
saturated `2^63 - 1`. -/
theorem equivalentTime_wrap_counterexample :
    GetBlockProof (CBlockIndex.mk 0 0 0x207fffff 0 none) ≠ 0 ∧
    2^63 ≤ 2^255 * 2 / GetBlockProof (CBlockIndex.mk 0 0 0x207fffff 0 none) ∧
    GetBlockProofEquivalentTime (CBlockIndex.mk 0 0 0 (2^255) none)
        (CBlockIndex.mk 0 0 0 0 none) (CBlockIndex.mk 0 0 0x207fffff 0 none)
        (ConsensusParams.mk 1 2 45 false false) ≠ 2^63 - 1 := by
  decide

/-- C7 (amended): provided the product of the work-difference magnitude
`|to.nChainWork - from.nChainWork|` and the spacing stays below `2^256` (no
256-bit wraparound), whenever that product divided by `GetBlockProof tip`
has more than 63 significant bits, `GetBlockProofEquivalentTime` returns the
maximum representable `int64` magnitude `2^63 - 1` with the correct sign,
never a wrapped value. -/
theorem equivalentTime_saturates (toIdx fromIdx tip : CBlockIndex)
    (params : ConsensusParams)
    (hno : (max toIdx.nChainWork fromIdx.nChainWork -
        min toIdx.nChainWork fromIdx.nChainWork) * spacingAsArith params < 2^256)
    (hbig : 2^63 ≤ (max toIdx.nChainWork fromIdx.nChainWork -
        min toIdx.nChainWork fromIdx.nChainWork) * spacingAsArith params /
          GetBlockProof tip) :
    GetBlockProofEquivalentTime toIdx fromIdx tip params =
      (if fromIdx.nChainWork < toIdx.nChainWork then 1 else -1) * (2^63 - 1) := by
  simp only [GetBlockProofEquivalentTime]
  by_cases hab : fromIdx.nChainWork < toIdx.nChainWork
  · have hd : max toIdx.nChainWork fromIdx.nChainWork -
        min toIdx.nChainWork fromIdx.nChainWork = toIdx.nChainWork - fromIdx.nChainWork := by
      omega
    rw [hd] at hno hbig
    rw [if_pos hab, if_pos hab]
    simp only
    rw [Nat.mod_eq_of_lt hno]
    rw [if_pos ((bits_gt_iff _ ?_).mpr hbig)]
    calc (toIdx.nChainWork - fromIdx.nChainWork) * spacingAsArith params /
          GetBlockProof tip ≤ (toIdx.nChainWork - fromIdx.nChainWork) *
            spacingAsArith params := Nat.div_le_self _ _
      _ < 2^256 := hno
  · have hd : max toIdx.nChainWork fromIdx.nChainWork -
        min toIdx.nChainWork fromIdx.nChainWork = fromIdx.nChainWork - toIdx.nChainWork := by
      omega
    rw [hd] at hno hbig
    rw [if_neg hab, if_neg hab]
    simp only
    rw [Nat.mod_eq_of_lt hno]
    rw [if_pos ((bits_gt_iff _ ?_).mpr hbig)]
    calc (fromIdx.nChainWork - toIdx.nChainWork) * spacingAsArith params /
          GetBlockProof tip ≤ (fromIdx.nChainWork - toIdx.nChainWork) *
            spacingAsArith params := Nat.div_le_self _ _
      _ < 2^256 := hno

/-- C7 witness: a work difference of `2^255` with spacing 1 over a tip of
block proof 2 saturates to `2^63 - 1`. -/
theorem equivalentTime_saturates_witness :
    GetBlockProofEquivalentTime (CBlockIndex.mk 0 0 0 (2^255) none)
        (CBlockIndex.mk 0 0 0 0 none) (CBlockIndex.mk 0 0 0x207fffff 0 none)
        (ConsensusParams.mk 1 1 45 false false) =
      (if (CBlockIndex.mk 0 0 0 0 none).nChainWork <
          (CBlockIndex.mk 0 0 0 (2^255) none).nChainWork then 1 else -1) * (2^63 - 1) :=
  equivalentTime_saturates (CBlockIndex.mk 0 0 0 (2^255) none)
    (CBlockIndex.mk 0 0 0 0 none) (CBlockIndex.mk 0 0 0x207fffff 0 none)
    (ConsensusParams.mk 1 1 45 false false) (by decide) (by decide)

/-- C8: swapping `to` and `from` negates `GetBlockProofEquivalentTime` while
leaving its magnitude unchanged, both in the saturating branch and in the
exact branch. -/
theorem equivalentTime_antisymm (toIdx fromIdx tip : CBlockIndex)
    (params : ConsensusParams) (_hp : GetBlockProof tip ≠ 0) :
    GetBlockProofEquivalentTime toIdx fromIdx tip params =
      - GetBlockProofEquivalentTime fromIdx toIdx tip params := by
  simp only [GetBlockProofEquivalentTime]
  rcases Nat.lt_trichotomy toIdx.nChainWork fromIdx.nChainWork with h | h | h
  · have hn : ¬ fromIdx.nChainWork < toIdx.nChainWork := by omega
    rw [if_neg hn, if_pos h]
    dsimp only
    split_ifs <;> ring
  · have hn1 : ¬ fromIdx.nChainWork < toIdx.nChainWork := by omega
    have hn2 : ¬ toIdx.nChainWork < fromIdx.nChainWork := by omega
    rw [if_neg hn1, if_neg hn2]
    dsimp only
    have h1 : fromIdx.nChainWork - toIdx.nChainWork = 0 := by omega
    have h2 : toIdx.nChainWork - fromIdx.nChainWork = 0 := by omega
    rw [h1, h2]
    simp [bits_zero]
  · have hn : ¬ toIdx.nChainWork < fromIdx.nChainWork := by omega
    rw [if_pos h, if_neg hn]
    dsimp only
    split_ifs <;> ring

/-- C8 witness: swapping two concrete entries with chain works 7 and 3
negates the estimate. -/
theorem equivalentTime_antisymm_witness :
    GetBlockProofEquivalentTime (CBlockIndex.mk 0 0 0 7 none) (CBlockIndex.mk 0 0 0 3 none)
        (CBlockIndex.mk 0 0 0x207fffff 0 none) (ConsensusParams.mk 1 45 45 false false) =
      - GetBlockProofEquivalentTime (CBlockIndex.mk 0 0 0 3 none)
          (CBlockIndex.mk 0 0 0 7 none) (CBlockIndex.mk 0 0 0x207fffff 0 none)
          (ConsensusParams.mk 1 45 45 false false) :=
  equivalentTime_antisymm (CBlockIndex.mk 0 0 0 7 none) (CBlockIndex.mk 0 0 0 3 none)
    (CBlockIndex.mk 0 0 0x207fffff 0 none) (ConsensusParams.mk 1 45 45 false false)
    (by decide)

end Joulecoin
